import Mathlib

/-!
Verification of the ztkent/sunlight-meter core: the TSL2591 register driver
(`tsl2591/tsl2591.go`, `tsl2591/constants.go`), the lux calculation and the
auto-gain search, and the sampling-job lifecycle and recorder
(`internal/sunlightmeter/sunlightmeter.go`).

Modelling conventions:
- Go bytes and `uint16` channel counts are `Nat` (with `% 65536` where the
  source decodes 16-bit values).
- Go `float64` arithmetic is modelled exactly over `ℚ` extended with the IEEE
  special values: type `FP` below with `nan`, `inf` (+infinity) and `ninf`
  (-infinity).  Rounding of binary floats is not modelled; all finite
  arithmetic is exact.
- The I2C bus and the physical light level are an oracle `World`: `writeOk`
  says whether a register write succeeds, and `read` gives the channel pair
  the sensor reports for a given (gain, timing) configuration (`none` is a
  bus read error).
- `fmt.Sprintf` verbs `%.5f` and `%.5e` are Go standard-library behaviour
  (not part of this repository); they are modelled by `fmtF` / `fmtE` below,
  which follow Go's documented fixed-precision decimal and scientific
  formatting with round-half-to-even.
-/

/-! Constants from `tsl2591/constants.go`. -/

def TSL2591_COMMAND_BIT : Nat := 0xA0

def TSL2591_ENABLE_POWEROFF : Nat := 0x00

def TSL2591_ENABLE_POWERON : Nat := 0x01

def TSL2591_ENABLE_AEN : Nat := 0x02

def TSL2591_ENABLE_AIEN : Nat := 0x10

def TSL2591_ENABLE_NPIEN : Nat := 0x80

def TSL2591_LUX_DF : ℚ := 408

def TSL2591_REGISTER_ENABLE : Nat := 0x00

def TSL2591_REGISTER_CONTROL : Nat := 0x01

def TSL2591_INTEGRATIONTIME_100MS : Nat := 0x00

def TSL2591_INTEGRATIONTIME_200MS : Nat := 0x01

def TSL2591_INTEGRATIONTIME_300MS : Nat := 0x02

def TSL2591_INTEGRATIONTIME_400MS : Nat := 0x03

def TSL2591_INTEGRATIONTIME_500MS : Nat := 0x04

def TSL2591_INTEGRATIONTIME_600MS : Nat := 0x05

def TSL2591_GAIN_LOW : Nat := 0x00

def TSL2591_GAIN_MED : Nat := 0x10

def TSL2591_GAIN_HIGH : Nat := 0x20

def TSL2591_GAIN_MAX : Nat := 0x30

/-- Go `float64` values, modelled as exact rationals plus the IEEE special
values `NaN`, `+Inf` and `-Inf`. -/
inductive FP where
  | fin : ℚ → FP
  | inf : FP
  | ninf : FP
  | nan : FP
deriving DecidableEq

/-- IEEE subtraction on the `FP` model. -/
def FP.sub : FP → FP → FP
  | nan, _ => nan
  | _, nan => nan
  | fin a, fin b => fin (a - b)
  | fin _, inf => ninf
  | fin _, ninf => inf
  | inf, fin _ => inf
  | ninf, fin _ => ninf
  | inf, inf => nan
  | inf, ninf => inf
  | ninf, inf => ninf
  | ninf, ninf => nan

/-- IEEE multiplication on the `FP` model (`0 * ±Inf = NaN`). -/
def FP.mul : FP → FP → FP
  | nan, _ => nan
  | _, nan => nan
  | fin a, fin b => fin (a * b)
  | fin a, inf => if 0 < a then inf else if a < 0 then ninf else nan
  | fin a, ninf => if 0 < a then ninf else if a < 0 then inf else nan
  | inf, fin b => if 0 < b then inf else if b < 0 then ninf else nan
  | ninf, fin b => if 0 < b then ninf else if b < 0 then inf else nan
  | inf, inf => inf
  | inf, ninf => ninf
  | ninf, inf => ninf
  | ninf, ninf => inf

/-- IEEE division on the `FP` model (`x / 0` is `±Inf` for `x ≠ 0`, `0 / 0`
is `NaN`; zeroes are unsigned, matching the nonnegative uses in the source). -/
def FP.div : FP → FP → FP
  | nan, _ => nan
  | _, nan => nan
  | fin a, fin b =>
    if b ≠ 0 then fin (a / b)
    else if 0 < a then inf else if a < 0 then ninf else nan
  | fin _, inf => fin 0
  | fin _, ninf => fin 0
  | inf, fin b => if 0 ≤ b then inf else ninf
  | ninf, fin b => if 0 ≤ b then ninf else inf
  | inf, inf => nan
  | inf, ninf => nan
  | ninf, inf => nan
  | ninf, ninf => nan

/-- Go `x == 0` on a `float64` (false for `NaN` and the infinities). -/
def FP.isZero : FP → Bool
  | fin a => a == 0
  | _ => false

/-- Device state of `type TSL2591 struct` (the `i2c.Device` handle and mutex
are replaced by the `World` oracle and sequential modelling). -/
structure TSL2591 where
  Enabled : Bool
  Timing : Nat
  Gain : Nat
deriving DecidableEq

/-- Oracle for the I2C bus and the physical environment.  `writeOk reg v`
tells whether writing byte `v` to register `reg` succeeds; `read gain timing`
gives the channel pair the sensor reports under that configuration, `none`
being a bus read error. -/
structure World where
  writeOk : Nat → Nat → Bool
  read : Nat → Nat → Option (Nat × Nat)

/-- `func (tsl *TSL2591) SetGain(gain byte) error`.  Returns the new device
state, the result, and the list of register writes attempted. -/
def SetGain (w : World) (tsl : TSL2591) (gain : Nat) :
    TSL2591 × Except String Unit × List (Nat × Nat) :=
  if !tsl.Enabled then (tsl, Except.error "sensor must be enabled", [])
  else
    let reg := TSL2591_COMMAND_BIT ||| TSL2591_REGISTER_CONTROL
    let value := tsl.Timing ||| gain
    if w.writeOk reg value then ({tsl with Gain := gain}, Except.ok (), [(reg, value)])
    else (tsl, Except.error "i2c write failed", [(reg, value)])

/-- `func (tsl *TSL2591) SetTiming(timing byte) error`. -/
def SetTiming (w : World) (tsl : TSL2591) (timing : Nat) :
    TSL2591 × Except String Unit × List (Nat × Nat) :=
  if !tsl.Enabled then (tsl, Except.error "sensor must be enabled", [])
  else
    let reg := TSL2591_COMMAND_BIT ||| TSL2591_REGISTER_CONTROL
    let value := timing ||| tsl.Gain
    if w.writeOk reg value then ({tsl with Timing := timing}, Except.ok (), [(reg, value)])
    else (tsl, Except.error "i2c write failed", [(reg, value)])

/-- `func (tsl *TSL2591) Enable() error`. -/
def Enable (w : World) (tsl : TSL2591) :
    TSL2591 × Except String Unit × List (Nat × Nat) :=
  if tsl.Enabled then (tsl, Except.ok (), [])
  else
    let reg := TSL2591_COMMAND_BIT ||| TSL2591_REGISTER_ENABLE
    let value := TSL2591_ENABLE_POWERON ||| TSL2591_ENABLE_AEN |||
      TSL2591_ENABLE_AIEN ||| TSL2591_ENABLE_NPIEN
    if w.writeOk reg value then ({tsl with Enabled := true}, Except.ok (), [(reg, value)])
    else (tsl, Except.error "i2c write failed", [(reg, value)])

/-- `func (tsl *TSL2591) Disable() error`. -/
def Disable (w : World) (tsl : TSL2591) :
    TSL2591 × Except String Unit × List (Nat × Nat) :=
  if !tsl.Enabled then (tsl, Except.ok (), [])
  else
    let reg := TSL2591_COMMAND_BIT ||| TSL2591_REGISTER_ENABLE
    let value := TSL2591_ENABLE_POWEROFF
    if w.writeOk reg value then ({tsl with Enabled := false}, Except.ok (), [(reg, value)])
    else (tsl, Except.error "i2c write failed", [(reg, value)])

/-- `func (tsl *TSL2591) GetFullLuminosity() (uint16, uint16, error)`: the
settle delay is dropped, the 4-byte little-endian block read is abstracted
into the channel pair reported by the `World` oracle. -/
def GetFullLuminosity (w : World) (tsl : TSL2591) : Except String (Nat × Nat) :=
  if !tsl.Enabled then Except.error "sensor must be enabled"
  else match w.read tsl.Gain tsl.Timing with
    | none => Except.error "i2c read failed"
    | some (c0, c1) => Except.ok (c0 % 65536, c1 % 65536)

/-- The `switch tsl.Timing` integration-time lookup inside `CalculateLux`
(local variable `int_time`); unknown bytes default to `100.0`. -/
def luxIntTime (timing : Nat) : ℚ :=
  if timing = TSL2591_INTEGRATIONTIME_100MS then 100
  else if timing = TSL2591_INTEGRATIONTIME_200MS then 200
  else if timing = TSL2591_INTEGRATIONTIME_300MS then 300
  else if timing = TSL2591_INTEGRATIONTIME_400MS then 400
  else if timing = TSL2591_INTEGRATIONTIME_500MS then 500
  else if timing = TSL2591_INTEGRATIONTIME_600MS then 600
  else 100

/-- The `switch tsl.Gain` gain-multiplier lookup inside `CalculateLux`
(local variable `adj_gain`); unknown bytes default to `1.0`. -/
def luxAdjGain (gain : Nat) : ℚ :=
  if gain = TSL2591_GAIN_LOW then 1
  else if gain = TSL2591_GAIN_MED then 25
  else if gain = TSL2591_GAIN_HIGH then 428
  else if gain = TSL2591_GAIN_MAX then 9876
  else 1

/-- `func (tsl *TSL2591) CalculateLux(ch0, ch1 uint16) (float64, error)`.
The float expression is evaluated with the IEEE `FP` operations, so the
unguarded division by `ch0` yields `+Inf`/`NaN` rather than an error,
exactly as in Go. -/
def CalculateLux (tsl : TSL2591) (ch0 ch1 : Nat) : Except String FP :=
  if ch0 = 65535 ∨ ch1 = 65535 then Except.error "Overflow"
  else
    let int_time := luxIntTime tsl.Timing
    let adj_gain := luxAdjGain tsl.Gain
    let cpl := (int_time * adj_gain) / TSL2591_LUX_DF
    let lux := FP.div
      (FP.mul (FP.sub (FP.fin ch0) (FP.fin ch1))
        (FP.sub (FP.fin 1) (FP.div (FP.fin ch1) (FP.fin ch0))))
      (FP.fin cpl)
    Except.ok lux

/-- `gainOptions` inside `SetOptimalGain`. -/
def gainOptions : List Nat :=
  [TSL2591_GAIN_LOW, TSL2591_GAIN_MED, TSL2591_GAIN_HIGH, TSL2591_GAIN_MAX]

/-- `integrationOptions` inside `SetOptimalGain`. -/
def integrationOptions : List Nat :=
  [TSL2591_INTEGRATIONTIME_600MS, TSL2591_INTEGRATIONTIME_500MS,
   TSL2591_INTEGRATIONTIME_400MS, TSL2591_INTEGRATIONTIME_300MS,
   TSL2591_INTEGRATIONTIME_200MS, TSL2591_INTEGRATIONTIME_100MS]

/-- Inner loop of `SetOptimalGain`: iterate the remaining integration times
under the current gain; the `Bool` says whether a combination succeeded. -/
def tryIntegrationTimes (w : World) : TSL2591 → List Nat → TSL2591 × Bool
  | tsl, [] => (tsl, false)
  | tsl, t :: rest =>
    let tsl1 := (SetTiming w tsl t).1
    match GetFullLuminosity w tsl1 with
    | Except.error _ => tryIntegrationTimes w tsl1 rest
    | Except.ok (ch0, ch1) =>
      if ch0 = 65535 ∨ ch1 = 65535 then tryIntegrationTimes w tsl1 rest
      else match CalculateLux tsl1 ch0 ch1 with
        | Except.error _ => tryIntegrationTimes w tsl1 rest
        | Except.ok lux =>
          if lux.isZero then tryIntegrationTimes w tsl1 rest else (tsl1, true)

/-- Outer loop of `SetOptimalGain`: iterate the remaining gain options. -/
def tryGainOptions (w : World) : TSL2591 → List Nat → TSL2591 × Bool
  | tsl, [] => (tsl, false)
  | tsl, g :: rest =>
    let tsl1 := (SetGain w tsl g).1
    let r := tryIntegrationTimes w tsl1 integrationOptions
    if r.2 then r else tryGainOptions w r.1 rest

/-- `func (tsl *TSL2591) SetOptimalGain() error`. -/
def SetOptimalGain (w : World) (tsl : TSL2591) : TSL2591 × Except String Unit :=
  let r := tryGainOptions w tsl gainOptions
  if r.2 then (r.1, Except.ok ())
  else
    let tsl1 := (SetGain w r.1 TSL2591_GAIN_LOW).1
    let tsl2 := (SetTiming w tsl1 TSL2591_INTEGRATIONTIME_600MS).1
    (tsl2, Except.error "All gain options are saturated")

/-- Specification-side acceptance test for one (gain, timing) combination of
the auto-gain search: the read succeeds, neither channel is saturated, and
the computed lux is non-zero. -/
def probe (w : World) (g t : Nat) : Bool :=
  match w.read g t with
  | none => false
  | some (a, b) =>
    let ch0 := a % 65536
    let ch1 := b % 65536
    if ch0 = 65535 ∨ ch1 = 65535 then false
    else match CalculateLux ⟨true, t, g⟩ ch0 ch1 with
      | Except.error _ => false
      | Except.ok lux => !lux.isZero

/-- The (gain, timing) combinations a gain-option list generates, in search
order: gains outermost, `integrationOptions` order innermost. -/
def combosOf (gs : List Nat) : List (Nat × Nat) :=
  gs.foldr (fun g acc => (integrationOptions.map fun t => (g, t)) ++ acc) []

/-- `type SLMeter struct`: the sampling-job state.  `device = none` models
`m.TSL2591 == nil`; `jobID` is the id of the most recently started job;
`cancelled` models the job context having been cancelled. -/
structure SLMeter where
  device : Option TSL2591
  jobID : Option String
  cancelled : Bool

/-- `func (m *SLMeter) Start() http.HandlerFunc`, sequentialized: the check
sequence of the handler followed by the goroutine prologue (fresh context,
`Enable`, fresh job id).  `freshID` stands for `uuid.New().String()`. -/
def Start (w : World) (m : SLMeter) (freshID : String) : SLMeter × Except String Unit :=
  match m.device with
  | none => (m, Except.error "The sensor is not connected")
  | some d =>
    if d.Enabled then (m, Except.error "The sensor is already started")
    else
      let d1 := (Enable w d).1
      ({m with device := some d1, jobID := some freshID, cancelled := false},
        Except.ok ())

/-- `func (m *SLMeter) Stop() http.HandlerFunc`, sequentialized: cancel the
job context, then `Disable` the device. -/
def Stop (w : World) (m : SLMeter) : SLMeter × Except String Unit :=
  match m.device with
  | none => (m, Except.error "The sensor is not connected")
  | some d =>
    if !d.Enabled then (m, Except.error "The sensor is already stopped")
    else
      let d1 := (Disable w d).1
      ({m with cancelled := true, device := some d1}, Except.ok ())

/-- `type LuxResults struct`, the samples sent over `LuxResultsChan`. -/
structure LuxResults where
  Lux : FP
  Infrared : FP
  Visible : FP
  FullSpectrum : FP
  JobID : String

/-- One row of the `sunlight` table as inserted by `MonitorAndRecordResults`
(every value is bound as a string by the `INSERT`). -/
structure SunlightRow where
  job_id : String
  lux : String
  full_spectrum : String
  visible : String
  infrared : String
deriving DecidableEq

/-- The decimal digit character for `d < 10`. -/
def digitChar (d : Nat) : Char := Char.ofNat (48 + d)

/-- Digits of `n` accumulated most-significant first; `fuel ≥ 1 + n` always
suffices. -/
def natToDigitsAux : Nat → Nat → List Char → List Char
  | 0, _, acc => acc
  | fuel+1, n, acc =>
    if n = 0 then acc else natToDigitsAux fuel (n / 10) (digitChar (n % 10) :: acc)

/-- Decimal digits of `n`, most-significant first (`[]` for `0`). -/
def natDigits (n : Nat) : List Char := natToDigitsAux (n + 1) n []

/-- Pad a digit list on the left with zeroes to length `k`. -/
def padZeros (k : Nat) (l : List Char) : List Char :=
  List.replicate (k - l.length) '0' ++ l

/-- Round the nonnegative fraction `n / d` (with `d > 0`) to the nearest
integer, ties to even — the rounding Go applies to the exact decimal value
when formatting at fixed precision.  Working on the raw numerator and
denominator keeps the definition kernel-computable. -/
def roundHalfEvenPos (n d : ℤ) : ℤ :=
  let f := n / d
  let r := n % d
  if 2 * r < d then f
  else if d < 2 * r then f + 1
  else if f % 2 = 0 then f else f + 1

/-- Fuel bound for the scientific normalization loop. -/
def normFuel (q : ℚ) : Nat := q.num.natAbs + q.den

/-- Normalize a positive rational into mantissa-exponent form: repeatedly
scale by 10 until the mantissa lies in `[1, 10)`. -/
def normAux (fuel : Nat) (q : ℚ) (e : ℤ) : ℚ × ℤ :=
  match fuel with
  | 0 => (q, e)
  | f+1 =>
    if q < 1 then normAux f (q * 10) (e - 1)
    else if 10 ≤ q then normAux f (q / 10) (e + 1)
    else (q, e)

/-- Character list of Go `fmt.Sprintf("%.<prec>f", q)` for a finite value:
sign, integer digits, then exactly `prec` fractional digits. -/
def fmtFNum (prec : Nat) (q : ℚ) : List Char :=
  let sign : List Char := if q < 0 then ['-'] else []
  let a := |q|
  let n := (roundHalfEvenPos (a.num * 10 ^ prec) (a.den : ℤ)).toNat
  let ip := n / 10 ^ prec
  let fp := n % 10 ^ prec
  let ipChars := if ip = 0 then ['0'] else natDigits ip
  sign ++ ipChars ++ '.' :: padZeros prec (natDigits fp)

/-- Go `fmt.Sprintf("%.<prec>f", v)`, including the special values. -/
def fmtF (prec : Nat) (v : FP) : String :=
  match v with
  | FP.nan => "NaN"
  | FP.inf => "+Inf"
  | FP.ninf => "-Inf"
  | FP.fin q => String.mk (fmtFNum prec q)

/-- Character list of Go `fmt.Sprintf("%.<prec>e", q)` for a finite value:
sign, one mantissa digit, a point, exactly `prec` further mantissa digits,
then `e`, the exponent sign and at least two exponent digits.  The rounded
mantissa `ne.1` lies below `10 ^ (prec + 1)` whenever the normalization
succeeded; the `%` makes this totality explicit. -/
def fmtENum (prec : Nat) (q : ℚ) : List Char :=
  if q = 0 then '0' :: '.' :: (List.replicate prec '0' ++ ['e', '+', '0', '0'])
  else
    let sign : List Char := if q < 0 then ['-'] else []
    let a := |q|
    let p := normAux (normFuel a) a 0
    let n0 := (roundHalfEvenPos (p.1.num * 10 ^ prec) (p.1.den : ℤ)).toNat
    let ne : Nat × ℤ := if n0 = 10 ^ (prec + 1) then (10 ^ prec, p.2 + 1) else (n0, p.2)
    let mds := padZeros (prec + 1) (natDigits (ne.1 % 10 ^ (prec + 1)))
    let expChars := (if ne.2 < 0 then '-' else '+') :: padZeros 2 (natDigits ne.2.natAbs)
    sign ++ (mds.take 1 ++ '.' :: mds.drop 1) ++ 'e' :: expChars

/-- Go `fmt.Sprintf("%.<prec>e", v)`, including the special values. -/
def fmtE (prec : Nat) (v : FP) : String :=
  match v with
  | FP.nan => "NaN"
  | FP.inf => "+Inf"
  | FP.ninf => "-Inf"
  | FP.fin q => String.mk (fmtENum prec q)

/-- The row `MonitorAndRecordResults` inserts for an accepted sample. -/
def mkSunlightRow (r : LuxResults) : SunlightRow :=
  ⟨r.JobID, fmtF 5 r.Lux, fmtE 5 r.FullSpectrum, fmtE 5 r.Visible, fmtE 5 r.Infrared⟩

/-- One iteration of the `MonitorAndRecordResults` consumer loop on the
current table contents: the sample is skipped exactly when
`math.IsInf(result.Lux, 1)` holds, i.e. when the lux is `+Inf`; otherwise
its row is appended. -/
def recordResult (db : List SunlightRow) (r : LuxResults) : List SunlightRow :=
  if r.Lux = FP.inf then db else db ++ [mkSunlightRow r]

/-- Checks that a string contains a point and ends with exactly `k` digit
characters after the last point. -/
def endsWithFracDigits (k : Nat) (s : String) : Bool :=
  let tail := s.data.reverse.takeWhile fun c => !(c == '.')
  tail.length == k && tail.all Char.isDigit && s.data.any fun c => c == '.'

/-- Number of mantissa digits of a scientific-notation string: the digit
characters before the `e`.  For a normalized mantissa this is the number of
significant digits. -/
def sciMantissaDigits (s : String) : Nat :=
  ((s.data.takeWhile fun c => !(c == 'e')).filter Char.isDigit).length

/-! Supporting lemmas about the lookup tables. -/

/-- The integration-time lookup is always positive. -/
theorem luxIntTime_pos (timing : Nat) : 0 < luxIntTime timing := by
  unfold luxIntTime
  split_ifs <;> norm_num

/-- The gain-multiplier lookup is always positive. -/
theorem luxAdjGain_pos (gain : Nat) : 0 < luxAdjGain gain := by
  unfold luxAdjGain
  split_ifs <;> norm_num

/-- The counts-per-lux divisor is never zero. -/
theorem cpl_ne_zero (timing gain : Nat) :
    (luxIntTime timing * luxAdjGain gain) / 408 ≠ (0 : ℚ) :=
  ne_of_gt (div_pos (mul_pos (luxIntTime_pos timing) (luxAdjGain_pos gain)) (by norm_num))

/-- C1: `CalculateLux` fails (with the Overflow error) iff `ch0 = 0xFFFF` or
`ch1 = 0xFFFF`; in particular `ch0 = 0` alone never produces an error, the
unguarded division notwithstanding. -/
theorem calculateLux_overflow_iff (tsl : TSL2591) (ch0 ch1 : Nat)
    (h0 : ch0 < 65536) (h1 : ch1 < 65536) :
    ((∃ e, CalculateLux tsl ch0 ch1 = Except.error e) ↔ (ch0 = 65535 ∨ ch1 = 65535))
    ∧ (ch0 = 0 → ch1 ≠ 65535 → ∃ lux, CalculateLux tsl ch0 ch1 = Except.ok lux) := by
  constructor
  · constructor
    · rintro ⟨e, he⟩
      by_contra hc
      rw [CalculateLux, if_neg hc] at he
      exact Except.noConfusion he
    · intro hsat
      exact ⟨_, by rw [CalculateLux, if_pos hsat]⟩
  · intro hz hne
    have hc : ¬(ch0 = 65535 ∨ ch1 = 65535) := by
      rintro (h | h)
      · omega
      · exact hne h
    exact ⟨_, by rw [CalculateLux, if_neg hc]⟩

/-- Witness for C1 at the concrete input `ch0 = 0`, `ch1 = 3`. -/
theorem calculateLux_overflow_iff_witness :
    ((∃ e, CalculateLux ⟨true, 0, 0⟩ 0 3 = Except.error e) ↔ (0 = 65535 ∨ 3 = 65535))
    ∧ (0 = 0 → 3 ≠ 65535 → ∃ lux, CalculateLux ⟨true, 0, 0⟩ 0 3 = Except.ok lux) :=
  calculateLux_overflow_iff ⟨true, 0, 0⟩ 0 3 (by norm_num) (by norm_num)

/-- C2: for non-saturated inputs with `ch0 ≠ 0`, `CalculateLux` returns the
finite value `(ch0 - ch1) * (1 - ch1/ch0) / countsPerLux` with
`countsPerLux = (intTime * gainMultiplier) / 408` from the lookup tables;
the spec example gives exactly 8704. -/
theorem calculateLux_formula (tsl : TSL2591) (ch0 ch1 : Nat)
    (hn0 : ch0 ≠ 65535) (hn1 : ch1 ≠ 65535) (hz : ch0 ≠ 0) :
    CalculateLux tsl ch0 ch1 =
      Except.ok (FP.fin (((ch0 : ℚ) - ch1) * (1 - (ch1 : ℚ) / ch0) /
        ((luxIntTime tsl.Timing * luxAdjGain tsl.Gain) / 408)))
    ∧ luxIntTime TSL2591_INTEGRATIONTIME_300MS = 300
    ∧ luxAdjGain TSL2591_GAIN_LOW = 1
    ∧ CalculateLux ⟨true, TSL2591_INTEGRATIONTIME_300MS, TSL2591_GAIN_LOW⟩ 10000 2000 =
        Except.ok (FP.fin 8704) := by
  have hc : ¬(ch0 = 65535 ∨ ch1 = 65535) := by tauto
  have hq0 : ((ch0 : ℚ)) ≠ 0 := Nat.cast_ne_zero.mpr hz
  have hcpl := cpl_ne_zero tsl.Timing tsl.Gain
  refine ⟨?_, ?_, ?_, ?_⟩
  · rw [CalculateLux, if_neg hc]
    simp only [TSL2591_LUX_DF, FP.div, FP.sub, FP.mul, if_pos hq0, if_pos hcpl]
  · norm_num [luxIntTime, TSL2591_INTEGRATIONTIME_100MS, TSL2591_INTEGRATIONTIME_200MS,
      TSL2591_INTEGRATIONTIME_300MS]
  · norm_num [luxAdjGain, TSL2591_GAIN_LOW]
  · norm_num [CalculateLux, luxIntTime, luxAdjGain, FP.div, FP.sub, FP.mul,
      TSL2591_LUX_DF, TSL2591_INTEGRATIONTIME_100MS, TSL2591_INTEGRATIONTIME_200MS,
      TSL2591_INTEGRATIONTIME_300MS, TSL2591_GAIN_LOW]

/-- Witness for C2 at the spec example `ch0 = 10000`, `ch1 = 2000`,
gain LOW, integration 300 ms. -/
theorem calculateLux_formula_witness :
    CalculateLux ⟨true, TSL2591_INTEGRATIONTIME_300MS, TSL2591_GAIN_LOW⟩ 10000 2000 =
      Except.ok (FP.fin (((10000 : ℚ) - 2000) * (1 - (2000 : ℚ) / 10000) /
        ((luxIntTime TSL2591_INTEGRATIONTIME_300MS * luxAdjGain TSL2591_GAIN_LOW) / 408)))
    ∧ luxIntTime TSL2591_INTEGRATIONTIME_300MS = 300
    ∧ luxAdjGain TSL2591_GAIN_LOW = 1
    ∧ CalculateLux ⟨true, TSL2591_INTEGRATIONTIME_300MS, TSL2591_GAIN_LOW⟩ 10000 2000 =
        Except.ok (FP.fin 8704) :=
  calculateLux_formula ⟨true, TSL2591_INTEGRATIONTIME_300MS, TSL2591_GAIN_LOW⟩ 10000 2000
    (by decide) (by decide) (by decide)

/-- C10: `CalculateLux` is total over all stored gain and timing bytes — a
timing byte outside the six defined constants is looked up as 100 ms, a gain
byte outside the four defined constants as 1x, and every non-saturated input
yields `Except.ok`. -/
theorem calculateLux_total (timing gain : Nat) (ht : timing < 256) (hg : gain < 256)
    (ch0 ch1 : Nat) (h0 : ch0 < 65536) (h1 : ch1 < 65536)
    (hn0 : ch0 ≠ 65535) (hn1 : ch1 ≠ 65535) (e : Bool) :
    (timing ≠ TSL2591_INTEGRATIONTIME_100MS → timing ≠ TSL2591_INTEGRATIONTIME_200MS →
     timing ≠ TSL2591_INTEGRATIONTIME_300MS → timing ≠ TSL2591_INTEGRATIONTIME_400MS →
     timing ≠ TSL2591_INTEGRATIONTIME_500MS → timing ≠ TSL2591_INTEGRATIONTIME_600MS →
     luxIntTime timing = 100)
    ∧ (gain ≠ TSL2591_GAIN_LOW → gain ≠ TSL2591_GAIN_MED → gain ≠ TSL2591_GAIN_HIGH →
       gain ≠ TSL2591_GAIN_MAX → luxAdjGain gain = 1)
    ∧ ∃ lux, CalculateLux ⟨e, timing, gain⟩ ch0 ch1 = Except.ok lux := by
  refine ⟨?_, ?_, ?_⟩
  · intro a b c d f g
    simp [luxIntTime, a, b, c, d, f, g]
  · intro a b c d
    simp [luxAdjGain, a, b, c, d]
  · have hc : ¬(ch0 = 65535 ∨ ch1 = 65535) := by tauto
    exact ⟨_, by rw [CalculateLux, if_neg hc]⟩

/-- Witness for C10 at timing byte `0x07` and gain byte `0x09`, neither of
which is a defined constant. -/
theorem calculateLux_total_witness :
    ((7 : Nat) ≠ TSL2591_INTEGRATIONTIME_100MS → (7 : Nat) ≠ TSL2591_INTEGRATIONTIME_200MS →
     (7 : Nat) ≠ TSL2591_INTEGRATIONTIME_300MS → (7 : Nat) ≠ TSL2591_INTEGRATIONTIME_400MS →
     (7 : Nat) ≠ TSL2591_INTEGRATIONTIME_500MS → (7 : Nat) ≠ TSL2591_INTEGRATIONTIME_600MS →
     luxIntTime 7 = 100)
    ∧ ((9 : Nat) ≠ TSL2591_GAIN_LOW → (9 : Nat) ≠ TSL2591_GAIN_MED → (9 : Nat) ≠ TSL2591_GAIN_HIGH →
       (9 : Nat) ≠ TSL2591_GAIN_MAX → luxAdjGain 9 = 1)
    ∧ ∃ lux, CalculateLux ⟨true, 7, 9⟩ 0 0 = Except.ok lux :=
  calculateLux_total 7 9 (by decide) (by decide) 0 0 (by decide) (by decide)
    (by decide) (by decide) true

/-- A bus on which every register write succeeds and every channel read
fails; used to instantiate theorems at concrete inputs. -/
def wAll : World := ⟨fun _ _ => true, fun _ _ => none⟩

/-- C6: `SetGain` and `SetTiming` fail with the not-enabled error (and touch
nothing) when the device is disabled; otherwise each attempts exactly one
control-register write combining the new field with the current value of the
other field, leaves the other in-memory field unchanged, and updates its own
in-memory field only when the bus write succeeds. -/
theorem setGain_setTiming_spec (w : World) (tsl : TSL2591) (g t : Nat) :
    (tsl.Enabled = false →
      SetGain w tsl g = (tsl, Except.error "sensor must be enabled", [])
      ∧ SetTiming w tsl t = (tsl, Except.error "sensor must be enabled", []))
    ∧ (tsl.Enabled = true →
        (SetGain w tsl g).2.2 =
          [(TSL2591_COMMAND_BIT ||| TSL2591_REGISTER_CONTROL, tsl.Timing ||| g)]
        ∧ (SetGain w tsl g).1.Timing = tsl.Timing
        ∧ (w.writeOk (TSL2591_COMMAND_BIT ||| TSL2591_REGISTER_CONTROL)
              (tsl.Timing ||| g) = true →
            SetGain w tsl g = ({tsl with Gain := g}, Except.ok (),
              [(TSL2591_COMMAND_BIT ||| TSL2591_REGISTER_CONTROL, tsl.Timing ||| g)]))
        ∧ (w.writeOk (TSL2591_COMMAND_BIT ||| TSL2591_REGISTER_CONTROL)
              (tsl.Timing ||| g) = false →
            (SetGain w tsl g).1 = tsl)
        ∧ (SetTiming w tsl t).2.2 =
          [(TSL2591_COMMAND_BIT ||| TSL2591_REGISTER_CONTROL, t ||| tsl.Gain)]
        ∧ (SetTiming w tsl t).1.Gain = tsl.Gain
        ∧ (w.writeOk (TSL2591_COMMAND_BIT ||| TSL2591_REGISTER_CONTROL)
              (t ||| tsl.Gain) = true →
            SetTiming w tsl t = ({tsl with Timing := t}, Except.ok (),
              [(TSL2591_COMMAND_BIT ||| TSL2591_REGISTER_CONTROL, t ||| tsl.Gain)]))
        ∧ (w.writeOk (TSL2591_COMMAND_BIT ||| TSL2591_REGISTER_CONTROL)
              (t ||| tsl.Gain) = false →
            (SetTiming w tsl t).1 = tsl)) := by
  constructor
  · intro h
    simp [SetGain, SetTiming, h]
  · intro h
    by_cases hwg : w.writeOk (TSL2591_COMMAND_BIT ||| TSL2591_REGISTER_CONTROL)
        (tsl.Timing ||| g) = true <;>
      by_cases hwt : w.writeOk (TSL2591_COMMAND_BIT ||| TSL2591_REGISTER_CONTROL)
          (t ||| tsl.Gain) = true <;>
        simp_all [SetGain, SetTiming]

/-- Witness for C6: a successful `SetGain` on an enabled device with timing
byte 1 leaves the timing alone, and `SetTiming` on a disabled device fails. -/
theorem setGain_setTiming_spec_witness :
    SetGain wAll ⟨true, 1, 0⟩ 16 = (⟨true, 1, 16⟩, Except.ok (),
      [(TSL2591_COMMAND_BIT ||| TSL2591_REGISTER_CONTROL, 1 ||| 16)])
    ∧ SetTiming wAll ⟨false, 1, 0⟩ 3 =
        (⟨false, 1, 0⟩, Except.error "sensor must be enabled", []) :=
  ⟨((setGain_setTiming_spec wAll ⟨true, 1, 0⟩ 16 3).2 rfl).2.2.1 rfl,
   ((setGain_setTiming_spec wAll ⟨false, 1, 0⟩ 16 3).1 rfl).2⟩

/-- C7: `Enable` and `Disable` are idempotent — in the target state they
perform no bus write and change nothing; otherwise `Enable` writes the byte
with the power-on, ALS-enable, ALS-interrupt and no-persist-interrupt bits
set and `Disable` writes the all-clear byte, and the in-memory `Enabled`
flag changes only when the write succeeds. -/
theorem enable_disable_spec (w : World) (tsl : TSL2591) :
    (tsl.Enabled = true → Enable w tsl = (tsl, Except.ok (), []))
    ∧ (tsl.Enabled = false → Disable w tsl = (tsl, Except.ok (), []))
    ∧ (tsl.Enabled = false →
        (Enable w tsl).2.2 = [(TSL2591_COMMAND_BIT ||| TSL2591_REGISTER_ENABLE,
          TSL2591_ENABLE_POWERON ||| TSL2591_ENABLE_AEN |||
            TSL2591_ENABLE_AIEN ||| TSL2591_ENABLE_NPIEN)]
        ∧ (w.writeOk (TSL2591_COMMAND_BIT ||| TSL2591_REGISTER_ENABLE)
              (TSL2591_ENABLE_POWERON ||| TSL2591_ENABLE_AEN |||
                TSL2591_ENABLE_AIEN ||| TSL2591_ENABLE_NPIEN) = true →
            (Enable w tsl).1 = {tsl with Enabled := true}
            ∧ (Enable w tsl).2.1 = Except.ok ())
        ∧ (w.writeOk (TSL2591_COMMAND_BIT ||| TSL2591_REGISTER_ENABLE)
              (TSL2591_ENABLE_POWERON ||| TSL2591_ENABLE_AEN |||
                TSL2591_ENABLE_AIEN ||| TSL2591_ENABLE_NPIEN) = false →
            (Enable w tsl).1 = tsl))
    ∧ (tsl.Enabled = true →
        (Disable w tsl).2.2 = [(TSL2591_COMMAND_BIT ||| TSL2591_REGISTER_ENABLE,
          TSL2591_ENABLE_POWEROFF)]
        ∧ (w.writeOk (TSL2591_COMMAND_BIT ||| TSL2591_REGISTER_ENABLE)
              TSL2591_ENABLE_POWEROFF = true →
            (Disable w tsl).1 = {tsl with Enabled := false}
            ∧ (Disable w tsl).2.1 = Except.ok ())
        ∧ (w.writeOk (TSL2591_COMMAND_BIT ||| TSL2591_REGISTER_ENABLE)
              TSL2591_ENABLE_POWEROFF = false →
            (Disable w tsl).1 = tsl)) := by
  by_cases he : tsl.Enabled = true <;>
    by_cases hwe : w.writeOk (TSL2591_COMMAND_BIT ||| TSL2591_REGISTER_ENABLE)
        (TSL2591_ENABLE_POWERON ||| TSL2591_ENABLE_AEN |||
          TSL2591_ENABLE_AIEN ||| TSL2591_ENABLE_NPIEN) = true <;>
      by_cases hwd : w.writeOk (TSL2591_COMMAND_BIT ||| TSL2591_REGISTER_ENABLE)
          TSL2591_ENABLE_POWEROFF = true <;>
        simp_all [Enable, Disable]

/-- Witness for C7: enabling an already-enabled device is a no-op with no
write, and disabling an enabled device writes the all-clear byte. -/
theorem enable_disable_spec_witness :
    Enable wAll ⟨true, 2, 16⟩ = (⟨true, 2, 16⟩, Except.ok (), [])
    ∧ (Disable wAll ⟨true, 2, 16⟩).2.2 =
        [(TSL2591_COMMAND_BIT ||| TSL2591_REGISTER_ENABLE, TSL2591_ENABLE_POWEROFF)]
    ∧ (Disable wAll ⟨true, 2, 16⟩).1 = {(⟨true, 2, 16⟩ : TSL2591) with Enabled := false} :=
  ⟨(enable_disable_spec wAll ⟨true, 2, 16⟩).1 rfl,
   ((enable_disable_spec wAll ⟨true, 2, 16⟩).2.2.2 rfl).1,
   (((enable_disable_spec wAll ⟨true, 2, 16⟩).2.2.2 rfl).2.1 rfl).1⟩

/-- C5: `Start` fails with the sensor-not-connected error when no device is
attached; a successful `Start` records the fresh job id, and a second
`Start` without an intervening `Stop` is rejected with the already-started
error, leaving the state — in particular the original job id — unchanged. -/
theorem start_spec (w : World) (m : SLMeter) (f1 f2 : String)
    (hw : ∀ reg v, w.writeOk reg v = true) :
    (m.device = none → Start w m f1 = (m, Except.error "The sensor is not connected"))
    ∧ (∀ d, m.device = some d → d.Enabled = false →
        (Start w m f1).2 = Except.ok ()
        ∧ (Start w m f1).1.jobID = some f1
        ∧ Start w (Start w m f1).1 f2 =
            ((Start w m f1).1, Except.error "The sensor is already started")
        ∧ (Start w (Start w m f1).1 f2).1.jobID = some f1) := by
  constructor
  · intro h
    simp [Start, h]
  · intro d hd he
    simp [Start, Enable, hd, he, hw]

/-- Witness for C5: starting with no device fails; starting a disabled
device then starting again is rejected and keeps the first job id. -/
theorem start_spec_witness :
    (Start wAll ⟨none, none, false⟩ "job-a" =
      (⟨none, none, false⟩, Except.error "The sensor is not connected"))
    ∧ ((Start wAll ⟨some ⟨false, 5, 0⟩, none, false⟩ "job-a").2 = Except.ok ()
        ∧ (Start wAll ⟨some ⟨false, 5, 0⟩, none, false⟩ "job-a").1.jobID = some "job-a"
        ∧ Start wAll (Start wAll ⟨some ⟨false, 5, 0⟩, none, false⟩ "job-a").1 "job-b" =
            ((Start wAll ⟨some ⟨false, 5, 0⟩, none, false⟩ "job-a").1,
              Except.error "The sensor is already started")
        ∧ (Start wAll (Start wAll ⟨some ⟨false, 5, 0⟩, none, false⟩ "job-a").1 "job-b").1.jobID =
            some "job-a") :=
  ⟨(start_spec wAll ⟨none, none, false⟩ "job-a" "job-b" fun _ _ => rfl).1 rfl,
   (start_spec wAll ⟨some ⟨false, 5, 0⟩, none, false⟩ "job-a" "job-b" fun _ _ => rfl).2
     ⟨false, 5, 0⟩ rfl rfl⟩

/-- C8: `Stop` on an attached but not-running device returns the
already-stopped error and changes no state; on a running device it marks the
job context cancelled and disables the device. -/
theorem stop_spec (w : World) (m : SLMeter)
    (hw : ∀ reg v, w.writeOk reg v = true) :
    (∀ d, m.device = some d → d.Enabled = false →
        Stop w m = (m, Except.error "The sensor is already stopped"))
    ∧ (∀ d, m.device = some d → d.Enabled = true →
        Stop w m = ({m with cancelled := true, device := some {d with Enabled := false}},
          Except.ok ())) := by
  constructor
  · intro d hd he
    simp [Stop, hd, he]
  · intro d hd he
    simp [Stop, Disable, hd, he, hw]

/-- Witness for C8: stopping a stopped meter fails and changes nothing;
stopping a running meter cancels and disables. -/
theorem stop_spec_witness :
    Stop wAll ⟨some ⟨false, 5, 0⟩, some "job-a", false⟩ =
      (⟨some ⟨false, 5, 0⟩, some "job-a", false⟩, Except.error "The sensor is already stopped")
    ∧ Stop wAll ⟨some ⟨true, 5, 0⟩, some "job-a", false⟩ =
        (⟨some ⟨false, 5, 0⟩, some "job-a", true⟩, Except.ok ()) :=
  ⟨(stop_spec wAll ⟨some ⟨false, 5, 0⟩, some "job-a", false⟩ fun _ _ => rfl).1
     ⟨false, 5, 0⟩ rfl rfl,
   (stop_spec wAll ⟨some ⟨true, 5, 0⟩, some "job-a", false⟩ fun _ _ => rfl).2
     ⟨true, 5, 0⟩ rfl rfl⟩

/-- On a bus where every write succeeds, `SetTiming` on an enabled device
just updates the in-memory timing. -/
theorem setTiming_fst (w : World) (tsl : TSL2591) (t : Nat)
    (hw : ∀ reg v, w.writeOk reg v = true) (he : tsl.Enabled = true) :
    (SetTiming w tsl t).1 = {tsl with Timing := t} := by
  simp [SetTiming, he, hw]

/-- On a bus where every write succeeds, `SetGain` on an enabled device just
updates the in-memory gain. -/
theorem setGain_fst (w : World) (tsl : TSL2591) (g : Nat)
    (hw : ∀ reg v, w.writeOk reg v = true) (he : tsl.Enabled = true) :
    (SetGain w tsl g).1 = {tsl with Gain := g} := by
  simp [SetGain, he, hw]

/-- The inner loop of `SetOptimalGain` is a first-match search over the
remaining integration times: it stops at the first time accepted by `probe`
under the current gain, and otherwise leaves the last time set. -/
theorem tryIntegrationTimes_eq (w : World)
    (hw : ∀ reg v, w.writeOk reg v = true) :
    ∀ (ts : List Nat) (en : Bool) (tm gn : Nat), en = true →
    tryIntegrationTimes w ⟨en, tm, gn⟩ ts =
      match ts.find? (fun t => probe w gn t) with
      | some t => (⟨en, t, gn⟩, true)
      | none => (⟨en, ts.getLastD tm, gn⟩, false) := by
  intro ts
  induction ts with
  | nil =>
    intro en tm gn he
    simp [tryIntegrationTimes, List.getLastD_nil]
  | cons t rest ih =>
    intro en tm gn he
    subst he
    have h1 : (SetTiming w ⟨true, tm, gn⟩ t).1 = ⟨true, t, gn⟩ :=
      setTiming_fst w ⟨true, tm, gn⟩ t hw rfl
    simp only [tryIntegrationTimes, h1]
    rcases hr : w.read gn t with _ | ⟨a, b⟩
    · have hp : ¬ ((fun x => probe w gn x) t = true) := by simp [probe, hr]
      rw [List.find?_cons_of_neg _ hp, List.getLastD_cons, ih true t gn rfl]
      simp [GetFullLuminosity, hr]
    · by_cases hsat : a % 65536 = 65535 ∨ b % 65536 = 65535
      · have hp : ¬ ((fun x => probe w gn x) t = true) := by simp [probe, hr, hsat]
        rw [List.find?_cons_of_neg _ hp, List.getLastD_cons, ih true t gn rfl]
        simp [GetFullLuminosity, hr, hsat]
      · rcases hlux : CalculateLux ⟨true, t, gn⟩ (a % 65536) (b % 65536) with e | lux
        · have hp : ¬ ((fun x => probe w gn x) t = true) := by
            simp [probe, hr, hsat, hlux]
          rw [List.find?_cons_of_neg _ hp, List.getLastD_cons, ih true t gn rfl]
          simp [GetFullLuminosity, hr, hsat, hlux]
        · by_cases hz : lux.isZero = true
          · have hp : ¬ ((fun x => probe w gn x) t = true) := by
              simp [probe, hr, hsat, hlux, hz]
            rw [List.find?_cons_of_neg _ hp, List.getLastD_cons, ih true t gn rfl]
            simp [GetFullLuminosity, hr, hsat, hlux, hz]
          · have hp : (fun x => probe w gn x) t = true := by
              simp [probe, hr, hsat, hlux, hz]
            rw [List.find?_cons_of_pos _ hp]
            simp [GetFullLuminosity, hr, hsat, hlux, hz]

/-- `combosOf` unfolds one gain at a time. -/
theorem combosOf_cons (g : Nat) (rest : List Nat) :
    combosOf (g :: rest) = (integrationOptions.map fun t => (g, t)) ++ combosOf rest := rfl

/-- The outer loop of `SetOptimalGain` is a first-match search over the
(gain, time) combinations the remaining gains generate; when every
combination is rejected it ends on the last gain and the last (100 ms)
integration time. -/
theorem tryGainOptions_eq (w : World)
    (hw : ∀ reg v, w.writeOk reg v = true) :
    ∀ (gs : List Nat) (en : Bool) (tm gn : Nat), en = true →
    tryGainOptions w ⟨en, tm, gn⟩ gs =
      match (combosOf gs).find? (fun p => probe w p.1 p.2) with
      | some p => (⟨en, p.2, p.1⟩, true)
      | none => match gs with
        | [] => (⟨en, tm, gn⟩, false)
        | g :: rest => (⟨en, TSL2591_INTEGRATIONTIME_100MS, rest.getLastD g⟩, false) := by
  intro gs
  induction gs with
  | nil =>
    intro en tm gn he
    simp [tryGainOptions, combosOf]
  | cons g rest ih =>
    intro en tm gn he
    subst he
    have h1 : (SetGain w ⟨true, tm, gn⟩ g).1 = ⟨true, tm, g⟩ :=
      setGain_fst w ⟨true, tm, gn⟩ g hw rfl
    simp only [tryGainOptions, h1]
    rw [tryIntegrationTimes_eq w hw integrationOptions true tm g rfl]
    rw [combosOf_cons, List.find?_append, List.find?_map]
    rcases hfind : integrationOptions.find? (fun t => probe w g t) with _ | t
    · have hcomp : (integrationOptions.find?
          ((fun p => probe w p.1 p.2) ∘ fun t => (g, t))) = none := by
        rw [show ((fun p : Nat × Nat => probe w p.1 p.2) ∘ fun t => (g, t)) =
            fun t => probe w g t from rfl, hfind]
      have hlast : integrationOptions.getLastD tm = TSL2591_INTEGRATIONTIME_100MS := rfl
      rw [hcomp, hlast]
      simp only [Option.map_none, Option.none_or, Bool.false_eq_true, if_false]
      rw [ih true TSL2591_INTEGRATIONTIME_100MS g rfl]
      rcases hfind2 : (combosOf rest).find? (fun p => probe w p.1 p.2) with _ | p
      · rw [hfind2]
        cases rest with
        | nil => rfl
        | cons g2 rest2 =>
          simp only [List.getLastD_cons]
          rfl
      · rw [hfind2]
        simp
    · have hcomp : (integrationOptions.find?
          ((fun p => probe w p.1 p.2) ∘ fun t => (g, t))) = some t := by
        rw [show ((fun p : Nat × Nat => probe w p.1 p.2) ∘ fun t => (g, t)) =
            fun t => probe w g t from rfl, hfind]
      rw [hcomp]
      simp

/-- C4: on an enabled device with a healthy write bus, `SetOptimalGain` is
the first-match search over gains ascending [LOW, MED, HIGH, MAX] and
integration times descending [600..100] ms, with a combination accepted iff
its read succeeds, neither channel is saturated and the lux is non-zero
(`probe`); the first accepted combination is left active with success, and
if every combination is rejected the device is restored to LOW gain and
600 ms and the saturated-all-gains error is returned. -/
theorem setOptimalGain_spec (w : World) (tsl : TSL2591)
    (he : tsl.Enabled = true) (hw : ∀ reg v, w.writeOk reg v = true) :
    SetOptimalGain w tsl =
      match (combosOf gainOptions).find? (fun p => probe w p.1 p.2) with
      | some p => ({tsl with Gain := p.1, Timing := p.2}, Except.ok ())
      | none =>
        ({tsl with Gain := TSL2591_GAIN_LOW, Timing := TSL2591_INTEGRATIONTIME_600MS},
          Except.error "All gain options are saturated") := by
  obtain ⟨en, tm, gn⟩ := tsl
  replace he : en = true := he
  subst he
  simp only [SetOptimalGain]
  rw [tryGainOptions_eq w hw gainOptions true tm gn rfl]
  rcases hfind : (combosOf gainOptions).find? (fun p => probe w p.1 p.2) with _ | p
  · rw [hfind]
    simp [SetGain, SetTiming, hw, gainOptions]
  · rw [hfind]
    simp

/-- Witness for C4 on a bus whose reads always fail: every combination is
rejected and the device is restored to LOW gain and 600 ms with the
saturated error. -/
theorem setOptimalGain_spec_witness :
    (SetOptimalGain wAll ⟨true, 3, 16⟩ =
      match (combosOf gainOptions).find? (fun p => probe wAll p.1 p.2) with
      | some p => ({(⟨true, 3, 16⟩ : TSL2591) with Gain := p.1, Timing := p.2}, Except.ok ())
      | none =>
        (⟨true, TSL2591_INTEGRATIONTIME_600MS, TSL2591_GAIN_LOW⟩,
          Except.error "All gain options are saturated"))
    ∧ SetOptimalGain wAll ⟨true, 3, 16⟩ =
        (⟨true, TSL2591_INTEGRATIONTIME_600MS, TSL2591_GAIN_LOW⟩,
          Except.error "All gain options are saturated") :=
  ⟨setOptimalGain_spec wAll ⟨true, 3, 16⟩ rfl (fun _ _ => rfl), rfl⟩

/-! Supporting lemmas about digit strings. -/

/-- Every character produced by `natToDigitsAux` is either from the
accumulator or a decimal digit character. -/
theorem natToDigitsAux_mem :
    ∀ (fuel n : Nat) (acc : List Char) (c : Char), c ∈ natToDigitsAux fuel n acc →
    c ∈ acc ∨ ∃ d, d < 10 ∧ c = digitChar d := by
  intro fuel
  induction fuel with
  | zero =>
    intro n acc c hc
    exact Or.inl hc
  | succ f ih =>
    intro n acc c hc
    rw [natToDigitsAux] at hc
    by_cases hn : n = 0
    · rw [if_pos hn] at hc
      exact Or.inl hc
    · rw [if_neg hn] at hc
      rcases ih (n / 10) (digitChar (n % 10) :: acc) c hc with hm | hd
      · rcases List.mem_cons.mp hm with he | ha
        · exact Or.inr ⟨n % 10, Nat.mod_lt _ (by norm_num), he⟩
        · exact Or.inl ha
      · exact Or.inr hd

/-- Every character of `natDigits n` is a decimal digit character. -/
theorem natDigits_mem (n : Nat) (c : Char) (hc : c ∈ natDigits n) :
    ∃ d, d < 10 ∧ c = digitChar d := by
  rcases natToDigitsAux_mem (n + 1) n [] c hc with hm | hd
  · cases hm
  · exact hd

/-- `natToDigitsAux` produces at most `k` new characters when `n < 10 ^ k`. -/
theorem natToDigitsAux_length :
    ∀ (fuel k n : Nat) (acc : List Char), n < 10 ^ k →
    (natToDigitsAux fuel n acc).length ≤ k + acc.length := by
  intro fuel
  induction fuel with
  | zero =>
    intro k n acc hn
    simp [natToDigitsAux]
  | succ f ih =>
    intro k n acc hn
    rw [natToDigitsAux]
    by_cases hz : n = 0
    · simp [hz]
    · rw [if_neg hz]
      have hk : k ≠ 0 := by
        rintro rfl
        simp at hn
        omega
      obtain ⟨k2, rfl⟩ := Nat.exists_eq_succ_of_ne_zero hk
      have hdiv : n / 10 < 10 ^ k2 := by
        rw [Nat.div_lt_iff_lt_mul (by norm_num)]
        calc n < 10 ^ (k2 + 1) := hn
        _ = 10 ^ k2 * 10 := by ring
      have := ih k2 (n / 10) (digitChar (n % 10) :: acc) hdiv
      simp only [List.length_cons] at this
      omega

/-- `natDigits n` has at most `k` characters when `n < 10 ^ k`. -/
theorem natDigits_length (n k : Nat) (hn : n < 10 ^ k) :
    (natDigits n).length ≤ k := by
  have := natToDigitsAux_length (n + 1) k n [] hn
  simpa [natDigits] using this

/-- Members of a padded digit list are `0` or come from the original list. -/
theorem padZeros_mem (k : Nat) (l : List Char) (c : Char) (hc : c ∈ padZeros k l) :
    c = '0' ∨ c ∈ l := by
  rcases List.mem_append.mp hc with hr | hl
  · exact Or.inl (List.eq_of_mem_replicate hr)
  · exact Or.inr hl

/-- Padding a list of at most `k` characters gives exactly `k` characters. -/
theorem padZeros_length (k : Nat) (l : List Char) (hl : l.length ≤ k) :
    (padZeros k l).length = k := by
  simp [padZeros]
  omega

/-- `takeWhile` on a list whose prefix wholly satisfies the predicate and is
followed by a failing element returns exactly that prefix. -/
theorem takeWhile_prefix_of (p : Char → Bool) :
    ∀ (l : List Char) (x : Char) (r : List Char), (∀ c ∈ l, p c = true) → p x = false →
    (l ++ x :: r).takeWhile p = l := by
  intro l
  induction l with
  | nil =>
    intro x r _ hx
    simp [List.takeWhile, hx]
  | cons a rest ih =>
    intro x r hl hx
    have ha : p a = true := hl a (List.mem_cons_self a rest)
    simp only [List.cons_append, List.takeWhile_cons, ha]
    rw [ih x r (fun c hc => hl c (List.mem_cons_of_mem a hc)) hx]
    simp

/-- Decimal digit characters are digits and differ from `.` and `e`. -/
theorem digitChar_props (d : Nat) (hd : d < 10) :
    (digitChar d).isDigit = true ∧ ((digitChar d) == '.') = false
    ∧ ((digitChar d) == 'e') = false := by
  interval_cases d <;> exact ⟨by decide, by decide, by decide⟩

/-- A string of any prefix followed by a point and exactly `prec` digit
characters passes the `endsWithFracDigits prec` check. -/
theorem endsWithFracDigits_shape (prec : Nat) (pre frac : List Char)
    (hmem : ∀ c ∈ frac, c.isDigit = true ∧ (c == '.') = false)
    (hlen : frac.length = prec) :
    endsWithFracDigits prec (String.mk (pre ++ '.' :: frac)) = true := by
  rw [endsWithFracDigits]
  have hdata : (String.mk (pre ++ '.' :: frac)).data = pre ++ '.' :: frac := rfl
  rw [hdata]
  have hrev : (pre ++ '.' :: frac).reverse = frac.reverse ++ '.' :: pre.reverse := by
    rw [List.reverse_append, List.reverse_cons, List.append_assoc]
    simp
  rw [hrev]
  rw [takeWhile_prefix_of _ frac.reverse '.' pre.reverse
    (fun c hc => by simpa using (hmem c (List.mem_reverse.mp hc)).2) (by decide)]
  simp only [Bool.and_eq_true]
  refine ⟨⟨?_, ?_⟩, ?_⟩
  · simp [hlen]
  · rw [List.all_eq_true]
    intro c hc
    exact (hmem c (List.mem_reverse.mp hc)).1
  · rw [List.any_eq_true]
    exact ⟨'.', by simp, by decide⟩

/-- A scientific-notation string made of a non-digit sign, a mantissa of
`prec + 1` digit characters split around the point, and an exponent part
after `e` has exactly `prec + 1` mantissa digits. -/
theorem sciMantissaDigits_shape (prec : Nat) (sign mds exp2 : List Char)
    (hsign : ∀ c ∈ sign, (c == 'e') = false ∧ c.isDigit = false)
    (hmds : ∀ c ∈ mds, c.isDigit = true ∧ (c == 'e') = false)
    (hlen : mds.length = prec + 1) :
    sciMantissaDigits
      (String.mk (sign ++ (mds.take 1 ++ '.' :: mds.drop 1) ++ 'e' :: exp2)) = prec + 1 := by
  rw [sciMantissaDigits]
  have hdata : (String.mk (sign ++ (mds.take 1 ++ '.' :: mds.drop 1) ++ 'e' :: exp2)).data =
      (sign ++ (mds.take 1 ++ '.' :: mds.drop 1)) ++ 'e' :: exp2 := by
    show sign ++ (mds.take 1 ++ '.' :: mds.drop 1) ++ 'e' :: exp2 = _
    rw [List.append_assoc]
  rw [hdata]
  rw [takeWhile_prefix_of _ (sign ++ (mds.take 1 ++ '.' :: mds.drop 1)) 'e' exp2 ?hpre (by decide)]
  case hpre =>
    intro c hc
    rcases List.mem_append.mp hc with hs | hm
    · simpa using (hsign c hs).1
    · rcases List.mem_append.mp hm with ht | hd
      · simpa using (hmds c (List.take_subset 1 mds ht)).2
      · rcases List.mem_cons.mp hd with rfl | hd2
        · decide
        · simpa using (hmds c (List.drop_subset 1 mds hd2)).2
  have hs0 : sign.filter Char.isDigit = [] := by
    rw [List.filter_eq_nil_iff]
    intro c hc
    simp [(hsign c hc).2]
  have ht1 : (mds.take 1).filter Char.isDigit = mds.take 1 :=
    List.filter_eq_self.mpr fun c hc => (hmds c (List.take_subset 1 mds hc)).1
  have hd1 : (mds.drop 1).filter Char.isDigit = mds.drop 1 :=
    List.filter_eq_self.mpr fun c hc => (hmds c (List.drop_subset 1 mds hc)).1
  rw [List.filter_append, List.filter_append, hs0, ht1,
    List.filter_cons_of_neg (by decide), hd1]
  rw [List.nil_append, List.length_append]
  have := congrArg List.length (List.take_append_drop 1 mds)
  simp only [List.length_append] at this
  omega

/-- `%.prec f` output for a finite value always ends in a point followed by
exactly `prec` digit characters. -/
theorem fmtF_fracDigits (prec : Nat) (q : ℚ) :
    endsWithFracDigits prec (fmtF prec (FP.fin q)) = true := by
  have h10 : 0 < 10 ^ prec := pow_pos (by norm_num) prec
  show endsWithFracDigits prec (String.mk (fmtFNum prec q)) = true
  simp only [fmtFNum]
  refine endsWithFracDigits_shape prec _ _ ?_ ?_
  · intro c hc
    rcases padZeros_mem _ _ _ hc with rfl | h
    · exact ⟨by decide, by decide⟩
    · obtain ⟨d, hd, rfl⟩ := natDigits_mem _ _ h
      exact ⟨(digitChar_props d hd).1, (digitChar_props d hd).2.1⟩
  · exact padZeros_length _ _ (natDigits_length _ _ (Nat.mod_lt _ h10))

/-- `%.prec e` output for a finite value always has exactly `prec + 1`
mantissa digits (one before the point, `prec` after). -/
theorem fmtE_sciDigits (prec : Nat) (q : ℚ) :
    sciMantissaDigits (fmtE prec (FP.fin q)) = prec + 1 := by
  have h10 : 0 < 10 ^ (prec + 1) := pow_pos (by norm_num) _
  show sciMantissaDigits (String.mk (fmtENum prec q)) = prec + 1
  by_cases hq : q = 0
  · rw [fmtENum, if_pos hq]
    have hzshape : ('0' :: '.' :: (List.replicate prec '0' ++ ['e', '+', '0', '0'])) =
        [] ++ (('0' :: List.replicate prec '0').take 1 ++
          '.' :: ('0' :: List.replicate prec '0').drop 1) ++ 'e' :: ['+', '0', '0'] := by
      simp
    rw [hzshape]
    refine sciMantissaDigits_shape prec _ _ _ ?_ ?_ ?_
    · intro c hc
      cases hc
    · intro c hc
      rcases List.mem_cons.mp hc with rfl | h
      · exact ⟨by decide, by decide⟩
      · obtain rfl : c = '0' := List.eq_of_mem_replicate h
        exact ⟨by decide, by decide⟩
    · simp
  · simp only [fmtENum, if_neg hq]
    refine sciMantissaDigits_shape prec _ _ _ ?_ ?_ ?_
    · intro c hc
      by_cases hlt : q < 0
      · rw [if_pos hlt] at hc
        obtain rfl := List.mem_singleton.mp hc
        exact ⟨by decide, by decide⟩
      · rw [if_neg hlt] at hc
        cases hc
    · intro c hc
      rcases padZeros_mem _ _ _ hc with rfl | h
      · exact ⟨by decide, by decide⟩
      · obtain ⟨d, hd, rfl⟩ := natDigits_mem _ _ h
        exact ⟨(digitChar_props d hd).1, (digitChar_props d hd).2.2⟩
    · exact padZeros_length _ _ (natDigits_length _ _ (Nat.mod_lt _ h10))

/-- C3 counterexample: a sample whose lux is NaN passes the recorder filter,
which only tests `math.IsInf(lux, 1)`, and is persisted with lux rendered
as `NaN` — a NaN row reaches storage. -/
theorem recordResult_nan_cex :
    recordResult [] ⟨FP.nan, FP.fin 0, FP.fin 0, FP.fin 0, "job-n"⟩ =
      [⟨"job-n", "NaN", "0.00000e+00", "0.00000e+00", "0.00000e+00"⟩]
    ∧ (⟨FP.nan, FP.fin 0, FP.fin 0, FP.fin 0, "job-n"⟩ : LuxResults).Lux = FP.nan := by
  exact ⟨by decide, rfl⟩

/-- C3 (amended): the recorder drops a sample exactly when its lux is
`+Inf`; every other sample — NaN and `-Inf` included — is appended to
storage as one row. -/
theorem recordResult_drop_iff (db : List SunlightRow) (r : LuxResults) :
    (r.Lux = FP.inf → recordResult db r = db)
    ∧ (r.Lux ≠ FP.inf →
        recordResult db r = db ++ [mkSunlightRow r] ∧ recordResult db r ≠ db) := by
  constructor
  · intro h
    simp [recordResult, h]
  · intro h
    refine ⟨by simp [recordResult, h], ?_⟩
    simp only [recordResult, if_neg h]
    intro he
    have := congrArg List.length he
    simp at this

/-- Witness for the amended C3 at concrete samples: a `+Inf` sample is
dropped, a NaN sample is appended. -/
theorem recordResult_drop_iff_witness :
    recordResult [] ⟨FP.inf, FP.fin 0, FP.fin 0, FP.fin 0, "job-i"⟩ = []
    ∧ recordResult [] ⟨FP.nan, FP.fin 0, FP.fin 0, FP.fin 0, "job-n"⟩ =
        [] ++ [mkSunlightRow ⟨FP.nan, FP.fin 0, FP.fin 0, FP.fin 0, "job-n"⟩] :=
  ⟨(recordResult_drop_iff [] ⟨FP.inf, FP.fin 0, FP.fin 0, FP.fin 0, "job-i"⟩).1 rfl,
   ((recordResult_drop_iff [] ⟨FP.nan, FP.fin 0, FP.fin 0, FP.fin 0, "job-n"⟩).2
     (by decide)).1⟩

/-- C9 counterexample: the persisted scientific strings carry six
significant digits, not five — `%.5e` of 5.0 is `5.00000e+00`. -/
theorem recordResult_sigDigits_cex :
    recordResult [] ⟨FP.fin 1, FP.fin 5, FP.fin 5, FP.fin 5, "job-1"⟩ =
      [⟨"job-1", "1.00000", "5.00000e+00", "5.00000e+00", "5.00000e+00"⟩]
    ∧ sciMantissaDigits "5.00000e+00" = 6
    ∧ ¬ sciMantissaDigits "5.00000e+00" = 5 :=
  ⟨by decide, by decide, by decide⟩

/-- C9 (amended): every accepted sample is persisted as exactly one
appended row carrying its job id, its lux through `%.5f` (a decimal string
with exactly 5 fractional digits when the lux is finite), and its
full-spectrum, visible and infrared values through `%.5e` (scientific
strings with exactly 5 fractional mantissa digits, i.e. 6 significant
digits, when finite). -/
theorem recordResult_row_format (db : List SunlightRow) (r : LuxResults)
    (h : r.Lux ≠ FP.inf) :
    recordResult db r = db ++ [mkSunlightRow r]
    ∧ mkSunlightRow r =
        ⟨r.JobID, fmtF 5 r.Lux, fmtE 5 r.FullSpectrum, fmtE 5 r.Visible, fmtE 5 r.Infrared⟩
    ∧ (∀ q, r.Lux = FP.fin q → endsWithFracDigits 5 (fmtF 5 r.Lux) = true)
    ∧ (∀ q, r.FullSpectrum = FP.fin q → sciMantissaDigits (fmtE 5 r.FullSpectrum) = 6)
    ∧ (∀ q, r.Visible = FP.fin q → sciMantissaDigits (fmtE 5 r.Visible) = 6)
    ∧ (∀ q, r.Infrared = FP.fin q → sciMantissaDigits (fmtE 5 r.Infrared) = 6) := by
  refine ⟨by simp [recordResult, h], rfl, ?_, ?_, ?_, ?_⟩
  · intro q hq
    rw [hq]
    exact fmtF_fracDigits 5 q
  · intro q hq
    rw [hq]
    exact fmtE_sciDigits 5 q
  · intro q hq
    rw [hq]
    exact fmtE_sciDigits 5 q
  · intro q hq
    rw [hq]
    exact fmtE_sciDigits 5 q

/-- Witness for the amended C9 at a concrete finite sample. -/
theorem recordResult_row_format_witness :
    recordResult [] ⟨FP.fin 1, FP.fin 5, FP.fin 5, FP.fin 5, "job-1"⟩ =
      [] ++ [mkSunlightRow ⟨FP.fin 1, FP.fin 5, FP.fin 5, FP.fin 5, "job-1"⟩]
    ∧ mkSunlightRow ⟨FP.fin 1, FP.fin 5, FP.fin 5, FP.fin 5, "job-1"⟩ =
        ⟨"job-1", fmtF 5 (FP.fin 1), fmtE 5 (FP.fin 5), fmtE 5 (FP.fin 5), fmtE 5 (FP.fin 5)⟩
    ∧ endsWithFracDigits 5 (fmtF 5 (FP.fin 1)) = true
    ∧ sciMantissaDigits (fmtE 5 (FP.fin 5)) = 6 := by
  have h := recordResult_row_format [] ⟨FP.fin 1, FP.fin 5, FP.fin 5, FP.fin 5, "job-1"⟩
    (by decide)
  exact ⟨h.1, h.2.1, h.2.2.1 1 rfl, h.2.2.2.1 5 rfl⟩
